import Mathlib

/-!
Verification of the S3 client core of `goutil` (`src/aws/s3/core.go`).

The Go code is shallowly embedded: byte strings are `List Nat` (each entry a
byte value `< 256`), Go `string` values are Lean `String`s encoded to bytes by
`strBytes`, 32-bit words are `Nat` reduced mod `2^32` at each operation, and
the `crypto/hmac`, `crypto/sha1` and `encoding/base64` library primitives used
by `sign` are implemented in full (SHA-1 compression, HMAC construction,
padded standard-alphabet base64).
-/

set_option maxRecDepth 100000

namespace goutil

/-! ## Bytes and UTF-8 encoding -/

/-- UTF-8 encoding of one character, as a list of byte values. -/
def utf8Bytes (c : Char) : List Nat :=
  let n := c.toNat
  if n < 0x80 then [n]
  else if n < 0x800 then
    [0xC0 ||| (n >>> 6), 0x80 ||| (n &&& 0x3F)]
  else if n < 0x10000 then
    [0xE0 ||| (n >>> 12), 0x80 ||| ((n >>> 6) &&& 0x3F), 0x80 ||| (n &&& 0x3F)]
  else
    [0xF0 ||| (n >>> 18), 0x80 ||| ((n >>> 12) &&& 0x3F),
     0x80 ||| ((n >>> 6) &&& 0x3F), 0x80 ||| (n &&& 0x3F)]

/-- The UTF-8 bytes of a string: Go's `[]byte(s)` conversion. -/
def strBytes (s : String) : List Nat :=
  s.data.flatMap utf8Bytes

/-! ## SHA-1 (`crypto/sha1`) -/

/-- Reduce to a 32-bit word. -/
def w32 (n : Nat) : Nat := n % 4294967296

/-- Rotate a 32-bit word left by `k` bits. -/
def rotl (n k : Nat) : Nat := w32 ((n <<< k) ||| (n >>> (32 - k)))

/-- Big-endian 4-byte encoding of a 32-bit word. -/
def be4 (n : Nat) : List Nat :=
  [(n >>> 24) &&& 255, (n >>> 16) &&& 255, (n >>> 8) &&& 255, n &&& 255]

/-- Big-endian 8-byte encoding of a 64-bit value. -/
def be8 (n : Nat) : List Nat :=
  [(n >>> 56) &&& 255, (n >>> 48) &&& 255, (n >>> 40) &&& 255, (n >>> 32) &&& 255,
   (n >>> 24) &&& 255, (n >>> 16) &&& 255, (n >>> 8) &&& 255, n &&& 255]

/-- SHA-1 padding: append `0x80`, zero bytes to a length of 56 mod 64, then
the original bit length as 8 big-endian bytes. -/
def sha1Pad (msg : List Nat) : List Nat :=
  msg ++ [0x80] ++ List.replicate ((119 - msg.length % 64) % 64) 0
      ++ be8 ((msg.length * 8) % 18446744073709551616)

/-- The 16 big-endian 32-bit words of one 64-byte chunk. -/
def chunkWords (block : List Nat) : Array Nat :=
  (List.range 16).foldl (fun a i =>
    a.push (((block.getD (4 * i) 0) <<< 24) ||| ((block.getD (4 * i + 1) 0) <<< 16) |||
            ((block.getD (4 * i + 2) 0) <<< 8) ||| (block.getD (4 * i + 3) 0))) #[]

/-- Extend 16 message-schedule words to 80. -/
def sha1Schedule (ws : Array Nat) : Array Nat :=
  (List.range 64).foldl (fun a i =>
    a.push (rotl ((a.getD (i + 13) 0) ^^^ (a.getD (i + 8) 0) ^^^
                  (a.getD (i + 2) 0) ^^^ (a.getD i 0)) 1)) ws

/-- The five SHA-1 chaining words. -/
structure Sha1State where
  h0 : Nat
  h1 : Nat
  h2 : Nat
  h3 : Nat
  h4 : Nat

/-- SHA-1 initial state. -/
def sha1Init : Sha1State :=
  ⟨0x67452301, 0xEFCDAB89, 0x98BADCFE, 0x10325476, 0xC3D2E1F0⟩

/-- The SHA-1 round function for round `i` on working variables `b`, `c`, `d`. -/
def sha1F (i b c d : Nat) : Nat :=
  if i < 20 then (b &&& c) ||| ((b ^^^ 0xFFFFFFFF) &&& d)
  else if i < 40 then b ^^^ c ^^^ d
  else if i < 60 then (b &&& c) ||| (b &&& d) ||| (c &&& d)
  else b ^^^ c ^^^ d

/-- The SHA-1 round constant for round `i`. -/
def sha1K (i : Nat) : Nat :=
  if i < 20 then 0x5A827999
  else if i < 40 then 0x6ED9EBA1
  else if i < 60 then 0x8F1BBCDC
  else 0xCA62C1D6

/-- One SHA-1 compression over an 80-word schedule. -/
def sha1Compress (st : Sha1State) (w : Array Nat) : Sha1State :=
  let r := (List.range 80).foldl
    (fun (t : Nat × Nat × Nat × Nat × Nat) i =>
      let (a, b, c, d, e) := t
      let temp := w32 (rotl a 5 + sha1F i b c d + e + sha1K i + w.getD i 0)
      (temp, a, rotl b 30, c, d))
    (st.h0, st.h1, st.h2, st.h3, st.h4)
  let (a, b, c, d, e) := r
  ⟨w32 (st.h0 + a), w32 (st.h1 + b), w32 (st.h2 + c), w32 (st.h3 + d), w32 (st.h4 + e)⟩

/-- SHA-1 digest of a byte sequence: 20 bytes. -/
def sha1 (msg : List Nat) : List Nat :=
  let p := sha1Pad msg
  let st := (List.range (p.length / 64)).foldl
    (fun st i => sha1Compress st (sha1Schedule (chunkWords ((p.drop (64 * i)).take 64))))
    sha1Init
  be4 st.h0 ++ be4 st.h1 ++ be4 st.h2 ++ be4 st.h3 ++ be4 st.h4

/-! ## HMAC (`crypto/hmac` over SHA-1, block size 64) -/

/-- HMAC-SHA1 of `msg` under `key`. -/
def hmacSha1 (key msg : List Nat) : List Nat :=
  let k0 := if 64 < key.length then sha1 key else key
  let k := k0 ++ List.replicate (64 - k0.length) 0
  sha1 ((k.map (fun b => b ^^^ 0x5C)) ++ sha1 ((k.map (fun b => b ^^^ 0x36)) ++ msg))

/-! ## Base64 (`encoding/base64.StdEncoding`, padded) -/

/-- The standard base64 alphabet. -/
def b64Alphabet : List Char :=
  "ABCDEFGHIJKLMNOPQRSTUVWXYZabcdefghijklmnopqrstuvwxyz0123456789+/".data

/-- The base64 digit for a 6-bit value. -/
def b64Char (n : Nat) : Char := b64Alphabet.getD n 'A'

/-- Padded standard-alphabet base64 of a byte sequence. -/
def base64 (l : List Nat) : String :=
  String.mk ((List.range ((l.length + 2) / 3)).foldl (fun acc i =>
    let rem := l.length - 3 * i
    let b0 := l.getD (3 * i) 0
    let b1 := l.getD (3 * i + 1) 0
    let b2 := l.getD (3 * i + 2) 0
    acc ++ [b64Char (b0 >>> 2),
            b64Char (((b0 &&& 3) <<< 4) ||| (b1 >>> 4)),
            if 2 ≤ rem then b64Char (((b1 &&& 15) <<< 2) ||| (b2 >>> 6)) else '=',
            if 3 ≤ rem then b64Char (b2 &&& 63) else '=']) [])

/-! ### Known-answer checks for the primitives (standard test vectors) -/

/-- SHA-1 of the empty message matches the published digest. -/
theorem sha1_empty_vector :
    sha1 [] = [0xda, 0x39, 0xa3, 0xee, 0x5e, 0x6b, 0x4b, 0x0d, 0x32, 0x55,
               0xbf, 0xef, 0x95, 0x60, 0x18, 0x90, 0xaf, 0xd8, 0x07, 0x09] := by
  decide

/-- SHA-1 of "abc" matches the published digest. -/
theorem sha1_abc_vector :
    sha1 (strBytes "abc") =
      [0xa9, 0x99, 0x3e, 0x36, 0x47, 0x06, 0x81, 0x6a, 0xba, 0x3e,
       0x25, 0x71, 0x78, 0x50, 0xc2, 0x6c, 0x9c, 0xd0, 0xd8, 0x9d] := by
  decide

/-- HMAC-SHA1 with key "key" over the quick-brown-fox sentence matches the
published digest. -/
theorem hmacSha1_fox_vector :
    hmacSha1 (strBytes "key") (strBytes "The quick brown fox jumps over the lazy dog") =
      [0xde, 0x7c, 0x9b, 0x85, 0xb8, 0xb7, 0x8a, 0xa6, 0xbc, 0x8a,
       0x7a, 0x36, 0xf7, 0x0a, 0x90, 0x70, 0x1c, 0x9d, 0xb4, 0xd9] := by
  decide

/-- Base64 of "Man" is "TWFu" and padding behaves as published. -/
theorem base64_vectors :
    base64 (strBytes "Man") = "TWFu" ∧ base64 (strBytes "Ma") = "TWE=" ∧
      base64 (strBytes "M") = "TQ==" ∧ base64 [] = "" := by
  decide

/-! ## Time formatting (`format` in core.go)

`format(t) = t.UTC().Format(time.RFC1123Z)` with layout
`"Mon, 02 Jan 2006 15:04:05 -0700"`; in UTC the numeric zone is `+0000`.
An instant is modelled as seconds since the Unix epoch. -/

/-- Civil (proleptic Gregorian) date from a count of days since 1970-01-01. -/
def civilFromDays (z0 : Nat) : Nat × Nat × Nat :=
  let z := z0 + 719468
  let era := z / 146097
  let doe := z % 146097
  let yoe := (doe - doe / 1460 + doe / 36524 - doe / 146096) / 365
  let doy := doe - (365 * yoe + yoe / 4 - yoe / 100)
  let mp := (5 * doy + 2) / 153
  let d := doy - (153 * mp + 2) / 5 + 1
  let m := if mp < 10 then mp + 3 else mp - 9
  (yoe + era * 400 + (if m ≤ 2 then 1 else 0), m, d)

/-- Three-letter English weekday names, Sunday first. -/
def weekdayNames : List String := ["Sun", "Mon", "Tue", "Wed", "Thu", "Fri", "Sat"]

/-- Three-letter English month names. -/
def monthNames : List String :=
  ["Jan", "Feb", "Mar", "Apr", "May", "Jun", "Jul", "Aug", "Sep", "Oct", "Nov", "Dec"]

/-- Zero-padded two-digit decimal. -/
def pad2 (n : Nat) : String := if n < 10 then "0" ++ toString n else toString n

/-- Model of `format` from core.go: RFC-1123-with-numeric-zone formatting of
the instant (seconds since the Unix epoch) in UTC. 1970-01-01 was a Thursday,
hence the weekday offset 4. -/
def format (t : Nat) : String :=
  let days := t / 86400
  let secs := t % 86400
  let c := civilFromDays days
  weekdayNames.getD ((days + 4) % 7) "" ++ ", " ++ pad2 c.2.2 ++ " " ++
    monthNames.getD (c.2.1 - 1) "" ++ " " ++ toString c.1 ++ " " ++
    pad2 (secs / 3600) ++ ":" ++ pad2 ((secs % 3600) / 60) ++ ":" ++
    pad2 (secs % 60) ++ " +0000"

/-- The time formatter agrees with reference renderings of RFC 1123Z at the
epoch, at the fixed test instant of the spec, and at two later instants. -/
theorem format_vectors :
    format 0 = "Thu, 01 Jan 1970 00:00:00 +0000" ∧
      format 1546300800 = "Tue, 01 Jan 2019 00:00:00 +0000" ∧
      format 1700000000 = "Tue, 14 Nov 2023 22:13:20 +0000" ∧
      format 4102444799 = "Thu, 31 Dec 2099 23:59:59 +0000" := by
  decide

/-! ## URL escaping (`net/url`) -/

/-- Upper-case hexadecimal digits, as emitted by `net/url` escaping. -/
def hexUpper (n : Nat) : Char := "0123456789ABCDEF".data.getD n '0'

/-- The mark characters `net/url` never escapes (RFC 3986 unreserved marks). -/
def isUnreservedMark (c : Char) : Bool := c = '-' || c = '_' || c = '.' || c = '~'

/-- Go `url.shouldEscape` in query-component mode: everything but ASCII
alphanumerics and `-_.~` is escaped (space becoming `+` rather than `%20`). -/
def shouldEscapeQuery (c : Char) : Bool := !(c.isAlphanum || isUnreservedMark c)

/-- Go `url.shouldEscape` in path mode: ASCII alphanumerics, `-_.~` and the
characters `$&+,/:;=@` stay; everything else (space and `?` included) is
percent-encoded. -/
def shouldEscapePath (c : Char) : Bool :=
  !(c.isAlphanum || isUnreservedMark c ||
    c = '$' || c = '&' || c = '+' || c = ',' || c = '/' ||
    c = ':' || c = ';' || c = '=' || c = '@')

/-- Percent-encode the UTF-8 bytes of one character. -/
def pctBytes (c : Char) : List Char :=
  (utf8Bytes c).flatMap (fun b => ['%', hexUpper (b / 16), hexUpper (b % 16)])

/-- Model of `url.QueryEscape`, the body of `esc` in core.go: alphanumerics
and `-_.~` are kept, a space becomes `+`, every other byte is
percent-encoded with upper-case hex. -/
def esc (s : String) : String :=
  String.mk (s.data.flatMap (fun c =>
    if c = ' ' then ['+']
    else if shouldEscapeQuery c then pctBytes c
    else [c]))

/-- Escape a string in path mode (`url.escape` with `encodePath`). -/
def escapePath (s : String) : String :=
  String.mk (s.data.flatMap (fun c => if shouldEscapePath c then pctBytes c else [c]))

/-- Whether a character is an ASCII hexadecimal digit. -/
def isHexDigit (c : Char) : Bool :=
  c.isDigit || ('a' ≤ c && c ≤ 'f') || ('A' ≤ c && c ≤ 'F')

/-- Numeric value of a hexadecimal digit. -/
def hexVal (c : Char) : Nat :=
  if c.isDigit then c.toNat - 48
  else if 'a' ≤ c && c ≤ 'f' then c.toNat - 87
  else c.toNat - 55

/-- Unescape a path the way Go `url.unescape` in path mode does: `%XX`
decodes to the byte `XX` and `+` is kept (`+` means space only in query
mode). A decoded byte is modelled as the character of its code point. Go
rejects a malformed `%` sequence with an error; such input never arises
from `esc`, which percent-encodes `%` itself, and this model keeps a
malformed sequence verbatim. -/
def unescapePath : List Char → List Char
  | [] => []
  | c :: rest =>
    if c = '%' then
      match rest with
      | a :: b :: rest2 =>
        if isHexDigit a && isHexDigit b then
          Char.ofNat (16 * hexVal a + hexVal b) :: unescapePath rest2
        else c :: unescapePath (a :: b :: rest2)
      | [] => [c]
      | [a] => [c, a]
    else c :: unescapePath rest

/-- The path data of a parsed `url.URL`: the decoded `Path`, and `RawPath`,
which Go keeps only when re-escaping `Path` does not reproduce the input. -/
structure URL where
  Path : String
  RawPath : String

/-- Model of `url.Parse` restricted to the path component, following Go's
`URL.setPath`. -/
def parsePath (raw : String) : URL :=
  let p := String.mk (unescapePath raw.data)
  { Path := p, RawPath := if escapePath p = raw then "" else raw }

/-- Go `URL.EscapedPath`: `RawPath` when it is kept, else the re-escaped
`Path`. This is the path `u.String()` puts into the request line. -/
def URL.EscapedPath (u : URL) : String :=
  if u.RawPath = "" then escapePath u.Path else u.RawPath

/-! ## Data model (`aws.Auth` and the s3 request/response types, with the
fields core.go consumes) -/

/-- `aws.Auth`: access key identifier and secret signing key. -/
structure Auth where
  AccessKey : String
  SecretKey : String

/-- An object reference: bucket name and key. -/
structure Object where
  Bucket : String
  Key : String

/-- `ListRequest`: bucket plus optional paging controls. `MaxKeys` is a Go
`int`, so it can be negative. -/
structure ListRequest where
  Bucket : String
  MaxKeys : Int
  Marker : String
  Prefix : String

/-- `GetRequest`: the object to fetch. -/
structure GetRequest where
  Object : Object

/-- `DeleteRequest`: the object to delete. -/
structure DeleteRequest where
  Object : Object

/-- The reader factory a streaming `PutRequest` carries: `CreateReader` may
fail (modelled by `CreateErr`), and `Len` reports the exact byte length of
the stream it would produce. -/
structure ReaderFactory where
  CreateErr : Option String
  Len : Nat

/-- `PutRequest`: streaming put. -/
structure PutRequest where
  Object : Object
  ContentType : String
  ReaderFact : ReaderFactory

/-- `PutObjectRequest`: buffered put of in-memory bytes. -/
structure PutObjectRequest where
  Object : Object
  ContentType : String
  Data : List Nat

/-- One `Contents` entry of a decoded list response. -/
structure ListEntry where
  Key : String
  LastModified : String
  Size : Int
  deriving Inhabited, DecidableEq

/-- The decoded list response. Its `default` value (all fields empty) is the
zero value a fresh `out` variable holds in Go. -/
structure ListBucketResult where
  Name : String
  Marker : String
  IsTruncated : Bool
  Contents : List ListEntry
  deriving Inhabited, DecidableEq

/-- The slice of `http.Response` the client inspects: numeric status code,
status line (`resp.Status`, e.g. `"404 Not Found"`), and body. -/
structure HResponse where
  StatusCode : Nat
  Status : String
  Body : String

/-- The outbound request core.go assembles: method, the escaped path put on
the wire, the query parameters (list only, sent unsigned), the headers in
insertion order, and the `ContentLength` field of `http.Request`. -/
structure BuiltRequest where
  Method : String
  UrlPath : String
  Query : List (String × String)
  Headers : List (String × String)
  ContentLength : Int
  deriving DecidableEq

/-! ## The signer (`sign` in core.go) -/

/-- Model of the single `hash.Hash.Write` into the freshly created HMAC: the
running state is exactly the bytes written, and per the `hash.Hash` contract
the write never returns an error. -/
def hashWrite (p : List Nat) : Except String (List Nat) := .ok p

/-- Model of the single `Write` into a fresh `base64.NewEncoder` backed by an
in-memory `bytes.Buffer`: the pending bytes are exactly those written;
writes to a `bytes.Buffer` never fail, so neither does the encoder write. -/
def b64EncoderWrite (p : List Nat) : Except String (List Nat) := .ok p

/-- Model of `Close` on the base64 encoder: flushes the padded encoding into
the buffer (which for an in-memory buffer never fails); the buffer then
holds the padded standard base64 of the bytes written. -/
def b64EncoderClose (pending : List Nat) : Except String String := .ok (base64 pending)

/-- `sign` from core.go: write the canonical string into an HMAC-SHA1 keyed
by the secret, then base64-encode the digest through an encoder into an
in-memory buffer, checking each step's error exactly as the source does. -/
def sign (a : Auth) (toSign : String) : Except String String :=
  match hashWrite (strBytes toSign) with
  | .error e => .error e
  | .ok data =>
    let sig := hmacSha1 (strBytes a.SecretKey) data
    match b64EncoderWrite sig with
    | .error e => .error e
    | .ok pending =>
      match b64EncoderClose pending with
      | .error e => .error e
      | .ok signature => .ok signature

/-- Evaluation lemma: `sign` takes every `ok` branch and returns the base64
HMAC-SHA1 digest of the canonical string under the secret key. -/
theorem sign_eq (a : Auth) (s : String) :
    sign a s = .ok (base64 (hmacSha1 (strBytes a.SecretKey) (strBytes s))) := rfl

/-! ## Canonical strings and the per-verb signers -/

/-- The newline constant `N` of core.go. -/
def N : String := "\n"

/-- The canonical string `signGet` signs. -/
def canonicalGet (path : String) (t : Nat) : String :=
  "GET" ++ N ++ N ++ N ++ format t ++ N ++ path

/-- The canonical string `signPut` signs: the content type occupies the
third field. -/
def canonicalPut (path ct : String) (t : Nat) : String :=
  "PUT" ++ N ++ N ++ ct ++ N ++ format t ++ N ++ path

/-- The canonical string `signList` signs (identical in form to a get). -/
def canonicalList (path : String) (t : Nat) : String :=
  "GET" ++ N ++ N ++ N ++ format t ++ N ++ path

/-- The canonical string `signDelete` signs. -/
def canonicalDelete (path : String) (t : Nat) : String :=
  "DELETE" ++ N ++ N ++ N ++ format t ++ N ++ path

/-- `signGet` from core.go. -/
def signGet (path : String) (a : Auth) (t : Nat) : Except String String :=
  sign a (canonicalGet path t)

/-- `signPut` from core.go. -/
def signPut (path ct : String) (a : Auth) (t : Nat) : Except String String :=
  sign a (canonicalPut path ct t)

/-- `signList` from core.go. -/
def signList (path : String) (a : Auth) (t : Nat) : Except String String :=
  sign a (canonicalList path t)

/-- `signDelete` from core.go. -/
def signDelete (path : String) (a : Auth) (t : Nat) : Except String String :=
  sign a (canonicalDelete path t)

/-! ## MIME inference and Go's `string(int)` conversion -/

/-- Go `filepath.Ext`: the suffix of the final path element beginning at its
last dot, empty when the final element has no dot. -/
def filepathExt (name : String) : String :=
  let rev := name.data.reverse
  let tail := rev.takeWhile (fun c => c ≠ '/' && c ≠ '.')
  match rev.dropWhile (fun c => c ≠ '/' && c ≠ '.') with
  | '.' :: _ => String.mk ('.' :: tail.reverse)
  | _ => ""

/-- `mimeType` from core.go: look the key's extension up in the MIME table.
The table (`mime.TypeByExtension`) is an external, system-dependent
collaborator, passed in as a function. -/
def mimeType (typeByExtension : String → String) (name : String) : String :=
  typeByExtension (filepathExt name)

/-- Go's `string(i)` conversion applied to an integer: the UTF-8 string of
the single rune numbered `i`, with values outside the valid rune range
(surrogates, above 0x10FFFF, and in Go also negatives) replaced by U+FFFD.
It is a rune conversion, not a decimal rendering. -/
def goStringOfInt (n : Nat) : String :=
  if n < 0xD800 ∨ (0xE000 ≤ n ∧ n ≤ 0x10FFFF) then String.mk [Char.ofNat n]
  else String.mk [Char.ofNat 0xFFFD]

/-! ## Request builders and response handling, one pair per operation -/

/-- `createURL` from core.go: parse
`https://s3.amazonaws.com/{esc bucket}/{esc key}`; only the path component
matters for signing and the request line. -/
def createURL (o : Object) : URL :=
  parsePath ("/" ++ esc o.Bucket ++ "/" ++ esc o.Key)

/-- The query parameters `list` accumulates, in insertion order: `max-keys`
from the request when positive and `"1000"` otherwise, then the optional
`marker` and `prefix`. -/
def listQuery (req : ListRequest) : List (String × String) :=
  let q := if req.MaxKeys > 0 then [("max-keys", toString req.MaxKeys)]
           else [("max-keys", "1000")]
  let q := if req.Marker ≠ "" then q ++ [("marker", req.Marker)] else q
  if req.Prefix ≠ "" then q ++ [("prefix", req.Prefix)] else q

/-- The pre-transport phase of `list` in core.go: reject an empty bucket
name before anything else, assemble the query, parse the URL (path
`/{bucket}/`; the query is not part of the signed path and is sent
unsigned), sign, and set the Date and Authorization headers. -/
def list_request (auth : Auth) (req : ListRequest) (now : Nat) :
    Except String BuiltRequest :=
  if req.Bucket = "" then .error "no bucket name"
  else
    let u := parsePath ("/" ++ req.Bucket ++ "/")
    match signList u.Path auth now with
    | .error e => .error e
    | .ok sig =>
      .ok { Method := "GET", UrlPath := u.EscapedPath, Query := listQuery req,
            Headers := [("Date", format now),
                        ("Authorization", "AWS " ++ auth.AccessKey ++ ":" ++ sig)],
            ContentLength := 0 }

/-- The pre-transport phase of `get` in core.go. -/
def get_request (auth : Auth) (req : GetRequest) (now : Nat) :
    Except String BuiltRequest :=
  let u := createURL req.Object
  match signGet u.Path auth now with
  | .error e => .error e
  | .ok sig =>
    .ok { Method := "GET", UrlPath := u.EscapedPath, Query := [],
          Headers := [("Date", format now),
                      ("Authorization", "AWS " ++ auth.AccessKey ++ ":" ++ sig)],
          ContentLength := 0 }

/-- The pre-transport phase of `del` in core.go. -/
def del_request (auth : Auth) (req : DeleteRequest) (now : Nat) :
    Except String BuiltRequest :=
  let u := createURL req.Object
  match signDelete u.Path auth now with
  | .error e => .error e
  | .ok sig =>
    .ok { Method := "DELETE", UrlPath := u.EscapedPath, Query := [],
          Headers := [("Date", format now),
                      ("Authorization", "AWS " ++ auth.AccessKey ++ ":" ++ sig)],
          ContentLength := 0 }

/-- The pre-transport phase of `put` in core.go: acquire the reader from the
factory, resolve the content type (caller's value, else MIME lookup on the
key), sign with verb PUT, and set the Date, Content-Type, Content-Length and
Authorization headers in the source's order. The `Content-Length` header
value is `string(req.ReaderFact.Len())`, a rune conversion; the separate
`ContentLength` field carries the numeric length. -/
def put_request (typeByExtension : String → String) (auth : Auth)
    (req : PutRequest) (now : Nat) : Except String BuiltRequest :=
  let u := createURL req.Object
  match req.ReaderFact.CreateErr with
  | some e => .error e
  | none =>
    let ct := if req.ContentType.length = 0 then mimeType typeByExtension req.Object.Key
              else req.ContentType
    match signPut u.Path ct auth now with
    | .error e => .error e
    | .ok sig =>
      .ok { Method := "PUT", UrlPath := u.EscapedPath, Query := [],
            Headers := [("Date", format now),
                        ("Content-Type", ct),
                        ("Content-Length", goStringOfInt req.ReaderFact.Len),
                        ("Authorization", "AWS " ++ auth.AccessKey ++ ":" ++ sig)],
            ContentLength := req.ReaderFact.Len }

/-- The pre-transport phase of `putObject` in core.go: as `put`, but the
content is the in-memory `Data` whose length is `len(req.Data)`; the
`Content-Length` header value is `string(len(req.Data))`. -/
def putObject_request (typeByExtension : String → String) (auth : Auth)
    (req : PutObjectRequest) (now : Nat) : Except String BuiltRequest :=
  let u := createURL req.Object
  let ct := if req.ContentType.length = 0 then mimeType typeByExtension req.Object.Key
            else req.ContentType
  match signPut u.Path ct auth now with
  | .error e => .error e
  | .ok sig =>
    .ok { Method := "PUT", UrlPath := u.EscapedPath, Query := [],
          Headers := [("Date", format now),
                      ("Content-Type", ct),
                      ("Content-Length", goStringOfInt req.Data.length),
                      ("Authorization", "AWS " ++ auth.AccessKey ++ ":" ++ sig)],
          ContentLength := req.Data.length }

/-- Outcome of `del` given the transport's response: any status in
[200,300) succeeds (`none`), anything else fails with the status line. -/
def del_run (auth : Auth) (req : DeleteRequest) (now : Nat) (resp : HResponse) :
    Option String :=
  match del_request auth req now with
  | .error e => some e
  | .ok _ =>
    if resp.StatusCode < 200 ∨ resp.StatusCode ≥ 300 then some resp.Status else none

/-- Outcome of `get` given the transport's response: the body on a 200,
otherwise the status line as the error. -/
def get_run (auth : Auth) (req : GetRequest) (now : Nat) (resp : HResponse) :
    Except String String :=
  match get_request auth req now with
  | .error e => .error e
  | .ok _ => if resp.StatusCode ≠ 200 then .error resp.Status else .ok resp.Body

/-- Outcome of `list` given the transport's response and the XML decoder
(`xml.Unmarshal`, an external collaborator): `some r` means the body decodes
into `r`; `none` means decoding fails, leaving the target untouched. The
source discards the decode error, so a failed decode on a 200 yields the
zero-value result paired with no error. -/
def list_run (auth : Auth) (req : ListRequest) (now : Nat) (resp : HResponse)
    (unmarshal : String → Option ListBucketResult) :
    ListBucketResult × Option String :=
  match list_request auth req now with
  | .error e => (default, some e)
  | .ok _ =>
    if resp.StatusCode ≠ 200 then (default, some resp.Status)
    else
      match unmarshal resp.Body with
      | some r => (r, none)
      | none => (default, none)

/-! # The claims -/

/-- C9: the sign operation fails only on internal encoding errors which never
occur: for every secret key and every canonical string, `sign` returns the
signature with no error — the error branches of the HMAC write and of the
in-memory base64 encoder are unreachable. -/
theorem C9_sign_never_fails (a : Auth) (s : String) :
    sign a s = .ok (base64 (hmacSha1 (strBytes a.SecretKey) (strBytes s))) ∧
      ∀ e, sign a s ≠ .error e := by
  refine ⟨sign_eq a s, fun e h => ?_⟩
  rw [sign_eq] at h
  exact Except.noConfusion h

/-- C5: for a fixed secret, verb, content-type, timestamp and path, the
canonical string and the resulting signature are deterministic — two runs
on inputs equal component-by-component produce identical output. -/
theorem C5_signing_deterministic (a a2 : Auth) (p p2 ct ct2 : String) (t t2 : Nat)
    (ha : a = a2) (hp : p = p2) (hct : ct = ct2) (ht : t = t2) :
    canonicalGet p t = canonicalGet p2 t2 ∧
      canonicalPut p ct t = canonicalPut p2 ct2 t2 ∧
      sign a (canonicalGet p t) = sign a2 (canonicalGet p2 t2) ∧
      sign a (canonicalPut p ct t) = sign a2 (canonicalPut p2 ct2 t2) := by
  subst ha; subst hp; subst hct; subst ht
  exact ⟨rfl, rfl, rfl, rfl⟩

/-- Witness for C5 at a concrete secret, path, content type and instant. -/
theorem C5_signing_deterministic_witness :
    canonicalGet "/bucket/key" 1546300800 = canonicalGet "/bucket/key" 1546300800 ∧
      canonicalPut "/bucket/key" "text/plain" 1546300800
        = canonicalPut "/bucket/key" "text/plain" 1546300800 ∧
      sign ⟨"AKID", "secret"⟩ (canonicalGet "/bucket/key" 1546300800)
        = sign ⟨"AKID", "secret"⟩ (canonicalGet "/bucket/key" 1546300800) ∧
      sign ⟨"AKID", "secret"⟩ (canonicalPut "/bucket/key" "text/plain" 1546300800)
        = sign ⟨"AKID", "secret"⟩ (canonicalPut "/bucket/key" "text/plain" 1546300800) :=
  C5_signing_deterministic ⟨"AKID", "secret"⟩ ⟨"AKID", "secret"⟩
    "/bucket/key" "/bucket/key" "text/plain" "text/plain" 1546300800 1546300800
    rfl rfl rfl rfl

/-- C10: `list` sets the query parameter `max-keys` to `"1000"` whenever the
request's `MaxKeys` is not strictly positive — negative values included —
and uses the caller's value only when it is greater than zero. -/
theorem C10_max_keys_default (req : ListRequest) :
    (req.MaxKeys ≤ 0 → List.lookup "max-keys" (listQuery req) = some "1000") ∧
      (0 < req.MaxKeys →
        List.lookup "max-keys" (listQuery req) = some (toString req.MaxKeys)) := by
  constructor
  · intro h
    have h2 : ¬ req.MaxKeys > 0 := by omega
    simp only [listQuery, h2, if_false]
    split <;> split <;> simp [List.lookup]
  · intro h
    simp only [listQuery, h, if_true]
    split <;> split <;> simp [List.lookup]

/-- Witness for C10 at `MaxKeys = -5` (not merely unset) and `MaxKeys = 7`. -/
theorem C10_max_keys_default_witness :
    List.lookup "max-keys" (listQuery ⟨"b", -5, "", ""⟩) = some "1000" ∧
      List.lookup "max-keys" (listQuery ⟨"b", 7, "", ""⟩) = some (toString (7 : Int)) :=
  ⟨(C10_max_keys_default ⟨"b", -5, "", ""⟩).1 (by decide),
   (C10_max_keys_default ⟨"b", 7, "", ""⟩).2 (by decide)⟩

/-- C6: `del` treats every HTTP status in [200,300) as success — 204 in
particular — and every status outside that range as failure carrying the
HTTP status text, so a 404 with status line "404 Not Found" yields exactly
that failure. -/
theorem C6_delete_status_ranges (auth : Auth) (req : DeleteRequest) (now : Nat)
    (resp : HResponse) :
    (200 ≤ resp.StatusCode ∧ resp.StatusCode < 300 →
      del_run auth req now resp = none) ∧
    (resp.StatusCode < 200 ∨ 300 ≤ resp.StatusCode →
      del_run auth req now resp = some resp.Status) ∧
    (resp.StatusCode = 204 → del_run auth req now resp = none) ∧
    (resp.StatusCode = 404 ∧ resp.Status = "404 Not Found" →
      del_run auth req now resp = some "404 Not Found") := by
  simp only [del_run, del_request, signDelete, sign_eq]
  refine ⟨fun h => ?_, fun h => ?_, fun h => ?_, fun h => ?_⟩
  · rw [if_neg (by omega)]
  · rw [if_pos (by omega)]
  · rw [if_neg (by omega)]
  · rw [if_pos (by omega), h.2]

/-- Witness for C6: a 204 response succeeds, a 404 response fails with
"404 Not Found". -/
theorem C6_delete_status_ranges_witness :
    del_run ⟨"AKID", "secret"⟩ ⟨⟨"b", "k"⟩⟩ 0 ⟨204, "204 No Content", ""⟩ = none ∧
      del_run ⟨"AKID", "secret"⟩ ⟨⟨"b", "k"⟩⟩ 0 ⟨404, "404 Not Found", ""⟩
        = some "404 Not Found" :=
  ⟨(C6_delete_status_ranges ⟨"AKID", "secret"⟩ ⟨⟨"b", "k"⟩⟩ 0
      ⟨204, "204 No Content", ""⟩).2.2.1 rfl,
   (C6_delete_status_ranges ⟨"AKID", "secret"⟩ ⟨⟨"b", "k"⟩⟩ 0
      ⟨404, "404 Not Found", ""⟩).2.2.2 ⟨rfl, rfl⟩⟩

/-- C7: a `list` call whose bucket name is empty fails with the validation
error "no bucket name" before any request is built — and whatever the
transport would have answered, the result is the zero value paired with
that error. -/
theorem C7_list_empty_bucket (auth : Auth) (req : ListRequest) (now : Nat)
    (h : req.Bucket = "") :
    list_request auth req now = .error "no bucket name" ∧
      ∀ (resp : HResponse) (unmarshal : String → Option ListBucketResult),
        list_run auth req now resp unmarshal = (default, some "no bucket name") := by
  constructor
  · simp [list_request, h]
  · intro resp unmarshal
    simp [list_run, list_request, h]

/-- Witness for C7 at a concrete empty-bucket request; two distinct
responses give the same validation failure. -/
theorem C7_list_empty_bucket_witness :
    list_request ⟨"AKID", "secret"⟩ ⟨"", 0, "", ""⟩ 0 = .error "no bucket name" ∧
      list_run ⟨"AKID", "secret"⟩ ⟨"", 0, "", ""⟩ 0 ⟨200, "200 OK", ""⟩ (fun _ => none)
        = (default, some "no bucket name") ∧
      list_run ⟨"AKID", "secret"⟩ ⟨"", 0, "", ""⟩ 0 ⟨500, "500 Internal Server Error", ""⟩
          (fun _ => none)
        = (default, some "no bucket name") :=
  ⟨(C7_list_empty_bucket ⟨"AKID", "secret"⟩ ⟨"", 0, "", ""⟩ 0 rfl).1,
   (C7_list_empty_bucket ⟨"AKID", "secret"⟩ ⟨"", 0, "", ""⟩ 0 rfl).2 _ _,
   (C7_list_empty_bucket ⟨"AKID", "secret"⟩ ⟨"", 0, "", ""⟩ 0 rfl).2 _ _⟩

/-- C8: when `list` receives a 200 response whose body fails XML decoding,
the decode error is discarded: the call returns the zero-value
`ListBucketResult` and no error. -/
theorem C8_list_decode_error_swallowed (auth : Auth) (req : ListRequest) (now : Nat)
    (resp : HResponse) (unmarshal : String → Option ListBucketResult)
    (hb : ¬ req.Bucket = "") (hs : resp.StatusCode = 200)
    (hd : unmarshal resp.Body = none) :
    list_run auth req now resp unmarshal = (default, none) := by
  simp [list_run, list_request, hb, hs, hd, signList, sign_eq]

/-- Witness for C8: a 200 response with an undecodable body yields the
zero-value result and no error. -/
theorem C8_list_decode_error_swallowed_witness :
    list_run ⟨"AKID", "secret"⟩ ⟨"b", 0, "", ""⟩ 0 ⟨200, "200 OK", "not xml"⟩
        (fun _ => none)
      = (default, none) :=
  C8_list_decode_error_swallowed ⟨"AKID", "secret"⟩ ⟨"b", 0, "", ""⟩ 0
    ⟨200, "200 OK", "not xml"⟩ (fun _ => none) (by decide) rfl rfl

/-- C4: every operation (list, get, delete, put, putObject) sets the
Authorization header to `"AWS " ++ accessKeyID ++ ":" ++ signature`, and the
Date header value is, character for character, the DATE field of the
canonical string that was signed — both derived from the one captured
instant `now`. -/
theorem C4_date_and_authorization (auth : Auth) (now : Nat) :
    (∀ (req : GetRequest) (r : BuiltRequest), get_request auth req now = .ok r →
      ∃ d sig, List.lookup "Date" r.Headers = some d ∧
        List.lookup "Authorization" r.Headers
          = some ("AWS " ++ auth.AccessKey ++ ":" ++ sig) ∧
        sign auth ("GET" ++ N ++ N ++ N ++ d ++ N ++ (createURL req.Object).Path)
          = .ok sig) ∧
    (∀ (req : ListRequest) (r : BuiltRequest), list_request auth req now = .ok r →
      ∃ d sig, List.lookup "Date" r.Headers = some d ∧
        List.lookup "Authorization" r.Headers
          = some ("AWS " ++ auth.AccessKey ++ ":" ++ sig) ∧
        sign auth ("GET" ++ N ++ N ++ N ++ d ++ N ++
            (parsePath ("/" ++ req.Bucket ++ "/")).Path)
          = .ok sig) ∧
    (∀ (req : DeleteRequest) (r : BuiltRequest), del_request auth req now = .ok r →
      ∃ d sig, List.lookup "Date" r.Headers = some d ∧
        List.lookup "Authorization" r.Headers
          = some ("AWS " ++ auth.AccessKey ++ ":" ++ sig) ∧
        sign auth ("DELETE" ++ N ++ N ++ N ++ d ++ N ++ (createURL req.Object).Path)
          = .ok sig) ∧
    (∀ (mt : String → String) (req : PutRequest) (r : BuiltRequest),
        put_request mt auth req now = .ok r →
      ∃ d ct sig, List.lookup "Date" r.Headers = some d ∧
        List.lookup "Content-Type" r.Headers = some ct ∧
        List.lookup "Authorization" r.Headers
          = some ("AWS " ++ auth.AccessKey ++ ":" ++ sig) ∧
        sign auth ("PUT" ++ N ++ N ++ ct ++ N ++ d ++ N ++ (createURL req.Object).Path)
          = .ok sig) ∧
    (∀ (mt : String → String) (req : PutObjectRequest) (r : BuiltRequest),
        putObject_request mt auth req now = .ok r →
      ∃ d ct sig, List.lookup "Date" r.Headers = some d ∧
        List.lookup "Content-Type" r.Headers = some ct ∧
        List.lookup "Authorization" r.Headers
          = some ("AWS " ++ auth.AccessKey ++ ":" ++ sig) ∧
        sign auth ("PUT" ++ N ++ N ++ ct ++ N ++ d ++ N ++ (createURL req.Object).Path)
          = .ok sig) := by
  refine ⟨?_, ?_, ?_, ?_, ?_⟩
  · intro req r h
    simp only [get_request, signGet, sign_eq] at h
    rw [Except.ok.injEq] at h
    subst h
    refine ⟨format now,
      base64 (hmacSha1 (strBytes auth.SecretKey)
        (strBytes (canonicalGet (createURL req.Object).Path now))), ?_, ?_, ?_⟩
    · simp [List.lookup]
    · simp [List.lookup]
    · exact sign_eq auth _
  · intro req r h
    by_cases hb : req.Bucket = ""
    · simp [list_request, hb] at h
    · simp only [list_request, hb, if_false, signList, sign_eq] at h
      rw [Except.ok.injEq] at h
      subst h
      refine ⟨format now,
        base64 (hmacSha1 (strBytes auth.SecretKey)
          (strBytes (canonicalList (parsePath ("/" ++ req.Bucket ++ "/")).Path now))),
        ?_, ?_, ?_⟩
      · simp [List.lookup]
      · simp [List.lookup]
      · exact sign_eq auth _
  · intro req r h
    simp only [del_request, signDelete, sign_eq] at h
    rw [Except.ok.injEq] at h
    subst h
    refine ⟨format now,
      base64 (hmacSha1 (strBytes auth.SecretKey)
        (strBytes (canonicalDelete (createURL req.Object).Path now))), ?_, ?_, ?_⟩
    · simp [List.lookup]
    · simp [List.lookup]
    · exact sign_eq auth _
  · intro mt req r h
    cases hc : req.ReaderFact.CreateErr with
    | some e => simp [put_request, hc] at h
    | none =>
      simp only [put_request, hc, signPut, sign_eq] at h
      rw [Except.ok.injEq] at h
      subst h
      refine ⟨format now,
        (if req.ContentType.length = 0 then mimeType mt req.Object.Key
         else req.ContentType),
        base64 (hmacSha1 (strBytes auth.SecretKey)
          (strBytes (canonicalPut (createURL req.Object).Path
            (if req.ContentType.length = 0 then mimeType mt req.Object.Key
             else req.ContentType) now))), ?_, ?_, ?_, ?_⟩
      · simp [List.lookup]
      · simp [List.lookup]
      · simp [List.lookup]
      · exact sign_eq auth _
  · intro mt req r h
    simp only [putObject_request, signPut, sign_eq] at h
    rw [Except.ok.injEq] at h
    subst h
    refine ⟨format now,
      (if req.ContentType.length = 0 then mimeType mt req.Object.Key
       else req.ContentType),
      base64 (hmacSha1 (strBytes auth.SecretKey)
        (strBytes (canonicalPut (createURL req.Object).Path
          (if req.ContentType.length = 0 then mimeType mt req.Object.Key
           else req.ContentType) now))), ?_, ?_, ?_, ?_⟩
    · simp [List.lookup]
    · simp [List.lookup]
    · simp [List.lookup]
    · exact sign_eq auth _

/-- C1: the canonical string is VERB, an empty field, CONTENT-TYPE, DATE,
PATH joined by newlines, with CONTENT-TYPE empty for GET, DELETE and LIST
and DATE the RFC-1123-with-numeric-zone rendering of the instant in UTC; at
verb GET, empty content type, instant `Tue, 01 Jan 2019 00:00:00 +0000` and
path `/mybucket/mykey` it equals the fixed test string; and the get request
built from access key "AKID" and secret "secret" carries the Authorization
header `"AWS AKID:" ++ base64 (HMAC-SHA1 "secret" canonicalString)` — whose
value is the independently computed `/r96naC3R2z2IfNUfKMXRx8T4PQ=`. -/
theorem C1_canonical_string_and_authorization :
    canonicalGet "/mybucket/mykey" 1546300800
      = "GET\n\n\nTue, 01 Jan 2019 00:00:00 +0000\n/mybucket/mykey" ∧
    base64 (hmacSha1 (strBytes "secret")
        (strBytes "GET\n\n\nTue, 01 Jan 2019 00:00:00 +0000\n/mybucket/mykey"))
      = "/r96naC3R2z2IfNUfKMXRx8T4PQ=" ∧
    get_request ⟨"AKID", "secret"⟩ ⟨⟨"mybucket", "mykey"⟩⟩ 1546300800
      = .ok { Method := "GET", UrlPath := "/mybucket/mykey", Query := [],
              Headers := [("Date", "Tue, 01 Jan 2019 00:00:00 +0000"),
                          ("Authorization",
                           "AWS AKID:" ++ base64 (hmacSha1 (strBytes "secret")
                             (strBytes "GET\n\n\nTue, 01 Jan 2019 00:00:00 +0000\n/mybucket/mykey")))],
              ContentLength := 0 } ∧
    (∀ (path : String) (t : Nat),
      canonicalGet path t = "GET" ++ N ++ "" ++ N ++ "" ++ N ++ format t ++ N ++ path ∧
      canonicalDelete path t
        = "DELETE" ++ N ++ "" ++ N ++ "" ++ N ++ format t ++ N ++ path ∧
      canonicalList path t
        = "GET" ++ N ++ "" ++ N ++ "" ++ N ++ format t ++ N ++ path) := by
  refine ⟨by decide, by decide, by rfl, fun path t => ⟨?_, ?_, ?_⟩⟩ <;> rfl

/-- The Content-Length entry the source adds to the header map with
`string(n)` is Go's rune conversion — `"A"` for a 65-byte payload, not the
decimal `"65"` — while the numeric `ContentLength` field set right next to
it carries the true 65. The map entry is inert: `reqWriteExcludeHeader`
keeps map Content-Length entries off the wire (see `wireContentLength`). -/
theorem put_header_map_rune_entry :
    goStringOfInt 65 = "A" ∧ toString (65 : Nat) = "65" ∧
    putObject_request (fun _ => "") ⟨"AKID", "secret"⟩
        ⟨⟨"mybucket", "mykey"⟩, "text/plain", List.replicate 65 0⟩ 1546300800
      = .ok { Method := "PUT", UrlPath := "/mybucket/mykey", Query := [],
              Headers := [("Date", "Tue, 01 Jan 2019 00:00:00 +0000"),
                          ("Content-Type", "text/plain"),
                          ("Content-Length", "A"),
                          ("Authorization",
                           "AWS AKID:" ++ base64 (hmacSha1 (strBytes "secret")
                             (strBytes "PUT\n\ntext/plain\nTue, 01 Jan 2019 00:00:00 +0000\n/mybucket/mykey")))],
              ContentLength := 65 } ∧
    put_request (fun _ => "") ⟨"AKID", "secret"⟩
        ⟨⟨"mybucket", "mykey"⟩, "text/plain", ⟨none, 65⟩⟩ 1546300800
      = .ok { Method := "PUT", UrlPath := "/mybucket/mykey", Query := [],
              Headers := [("Date", "Tue, 01 Jan 2019 00:00:00 +0000"),
                          ("Content-Type", "text/plain"),
                          ("Content-Length", "A"),
                          ("Authorization",
                           "AWS AKID:" ++ base64 (hmacSha1 (strBytes "secret")
                             (strBytes "PUT\n\ntext/plain\nTue, 01 Jan 2019 00:00:00 +0000\n/mybucket/mykey")))],
              ContentLength := 65 } := by
  refine ⟨by decide, by decide, by rfl, by rfl⟩

/-- Witness for C4: the get conjunct applied at a concrete request and
instant. -/
theorem C4_date_and_authorization_witness :
    ∃ r, get_request ⟨"AKID", "secret"⟩ ⟨⟨"mybucket", "mykey"⟩⟩ 1546300800 = .ok r ∧
      ∃ d sig, List.lookup "Date" r.Headers = some d ∧
        List.lookup "Authorization" r.Headers = some ("AWS " ++ "AKID" ++ ":" ++ sig) ∧
        sign ⟨"AKID", "secret"⟩
            ("GET" ++ N ++ N ++ N ++ d ++ N ++ (createURL ⟨"mybucket", "mykey"⟩).Path)
          = .ok sig :=
  ⟨_, rfl, (C4_date_and_authorization ⟨"AKID", "secret"⟩ 1546300800).1
    ⟨⟨"mybucket", "mykey"⟩⟩ _ rfl⟩

/-! ## Escaping lemmas used for C2 -/

/-- Query-escaping a list of characters it leaves unescaped (ASCII
alphanumerics and `-_.~`) or spaces keeps every character, turning each
space into `+`. -/
theorem escList_unescaped_space (l : List Char)
    (h : ∀ c ∈ l, shouldEscapeQuery c = false ∨ c = ' ') :
    l.flatMap (fun c =>
        if c = ' ' then ['+'] else if shouldEscapeQuery c then pctBytes c else [c])
      = l.map (fun c => if c = ' ' then '+' else c) := by
  induction l with
  | nil => rfl
  | cons c t ih =>
    have hc := h c (List.mem_cons_self c t)
    have ht := ih (fun x hx => h x (List.mem_cons_of_mem c hx))
    by_cases hsp : c = ' '
    · simp [hsp, ht]
    · have hq : shouldEscapeQuery c = false := by
        rcases hc with h1 | h1
        · exact h1
        · exact absurd h1 hsp
      simp [hsp, hq, ht]

/-- Path unescaping is the identity on a list without `%`. -/
theorem unescapePath_no_pct (l : List Char) (h : ∀ c ∈ l, ¬ c = '%') :
    unescapePath l = l := by
  induction l with
  | nil => rfl
  | cons c t ih =>
    have hc := h c (List.mem_cons_self c t)
    rw [unescapePath.eq_def]
    simp only [if_neg hc]
    rw [ih (fun x hx => h x (List.mem_cons_of_mem c hx))]

/-- For every parsed path, the escaped path that goes on the wire
(`u.String()`) is exactly the raw path that was parsed: either Go keeps
`RawPath` because re-escaping would change it, or re-escaping reproduces the
raw input. So the request line always carries the raw escaped string, while
the signed `u.Path` is its decoded form. -/
theorem parsePath_escapedPath (raw : String) : (parsePath raw).EscapedPath = raw := by
  by_cases h : escapePath (String.mk (unescapePath raw.data)) = raw
  · simp [parsePath, URL.EscapedPath, h]
  · have hne : ¬ raw = "" := by
      intro h0
      apply h
      subst h0
      decide
    simp [parsePath, URL.EscapedPath, h, hne]

/-- Counterexample to C2 as stated: `esc` is query escaping, so the key
`"my key"` becomes `"my+key"` — a `+`, not `%20` — and that `+` is what both
the signed path and the request path carry; moreover the signed path does
not match the request path for every key: for the key `"a/b"` the code
signs the decoded `/mybucket/a/b` while the request line carries the
percent-escaped `/mybucket/a%2Fb`. -/
theorem C2_counterexample :
    esc "my key" = "my+key" ∧ ¬ esc "my key" = "my%20key" ∧
      (createURL ⟨"mybucket", "my key"⟩).Path = "/mybucket/my+key" ∧
      (createURL ⟨"mybucket", "my key"⟩).EscapedPath = "/mybucket/my+key" ∧
      esc "a/b" = "a%2Fb" ∧
      (createURL ⟨"mybucket", "a/b"⟩).Path = "/mybucket/a/b" ∧
      (createURL ⟨"mybucket", "a/b"⟩).EscapedPath = "/mybucket/a%2Fb" ∧
      ¬ (createURL ⟨"mybucket", "a/b"⟩).Path
          = (createURL ⟨"mybucket", "a/b"⟩).EscapedPath := by
  refine ⟨by decide, by decide, by decide, by decide,
          by decide, by decide, by decide, by decide⟩

/-- C2 amended: escaping a key containing a space produces `+` (not `%20`)
in the request path; the path used in the request is always the
query-escaped `/bucket/key`; and the signed path (the parsed URL's decoded
`Path`) matches the actual request path (its `EscapedPath`) exactly when
bucket and key consist of characters query escaping leaves unescaped (ASCII
alphanumerics and `-_.~`) or spaces — precisely the keys whose escaped form
contains no percent-escape; for a percent-escaped key the two differ, as
the counterexample shows at `"a/b"`. -/
theorem C2_escape_amended (bucket key : String)
    (hb : ∀ c ∈ bucket.data, shouldEscapeQuery c = false ∨ c = ' ')
    (hk : ∀ c ∈ key.data, shouldEscapeQuery c = false ∨ c = ' ') :
    esc key = String.mk (key.data.map (fun c => if c = ' ' then '+' else c)) ∧
      (createURL ⟨bucket, key⟩).EscapedPath = "/" ++ esc bucket ++ "/" ++ esc key ∧
      (createURL ⟨bucket, key⟩).Path = (createURL ⟨bucket, key⟩).EscapedPath := by
  have hescdata : ∀ (s : String), (∀ c ∈ s.data, shouldEscapeQuery c = false ∨ c = ' ') →
      (esc s).data = s.data.map (fun c => if c = ' ' then '+' else c) := by
    intro s hs
    exact escList_unescaped_space s.data hs
  have hescmem : ∀ (s : String), (∀ c ∈ s.data, shouldEscapeQuery c = false ∨ c = ' ') →
      ∀ c ∈ (esc s).data, shouldEscapeQuery c = false ∨ c = '+' := by
    intro s hs c hc
    rw [hescdata s hs] at hc
    obtain ⟨x, hx, rfl⟩ := List.mem_map.mp hc
    by_cases hx2 : x = ' '
    · simp [hx2]
    · rcases hs x hx with h1 | h1
      · left
        simpa [hx2] using h1
      · exact absurd h1 hx2
  have hraw : ∀ c ∈ ("/" ++ esc bucket ++ "/" ++ esc key).data,
      shouldEscapeQuery c = false ∨ c = '+' ∨ c = '/' := by
    intro c hc
    rw [String.data_append, String.data_append, String.data_append] at hc
    have hslash : ∀ c2 ∈ "/".data, c2 = '/' := by decide
    simp only [List.mem_append] at hc
    rcases hc with ((hc | hc) | hc) | hc
    · exact Or.inr (Or.inr (hslash c hc))
    · rcases hescmem bucket hb c hc with h1 | h1
      · exact Or.inl h1
      · exact Or.inr (Or.inl h1)
    · exact Or.inr (Or.inr (hslash c hc))
    · rcases hescmem key hk c hc with h1 | h1
      · exact Or.inl h1
      · exact Or.inr (Or.inl h1)
  have hnp : ∀ c ∈ ("/" ++ esc bucket ++ "/" ++ esc key).data, ¬ c = '%' := by
    intro c hc heq
    rcases hraw c hc with h1 | h1 | h1
    · rw [heq] at h1
      exact absurd h1 (by decide)
    · rw [heq] at h1
      exact absurd h1 (by decide)
    · rw [heq] at h1
      exact absurd h1 (by decide)
  have hU : unescapePath ("/" ++ esc bucket ++ "/" ++ esc key).data
      = ("/" ++ esc bucket ++ "/" ++ esc key).data :=
    unescapePath_no_pct _ hnp
  have hPath : (createURL ⟨bucket, key⟩).Path = "/" ++ esc bucket ++ "/" ++ esc key := by
    show String.mk (unescapePath ("/" ++ esc bucket ++ "/" ++ esc key).data)
      = "/" ++ esc bucket ++ "/" ++ esc key
    rw [hU]
  have hEsc : (createURL ⟨bucket, key⟩).EscapedPath
      = "/" ++ esc bucket ++ "/" ++ esc key :=
    parsePath_escapedPath ("/" ++ esc bucket ++ "/" ++ esc key)
  exact ⟨congrArg String.mk (hescdata key hk), hEsc, hPath.trans hEsc.symm⟩

/-- Witness for the amended C2 at bucket "mybucket" and key "my key". -/
theorem C2_escape_amended_witness :
    esc "my key" = String.mk ("my key".data.map (fun c => if c = ' ' then '+' else c)) ∧
      (createURL ⟨"mybucket", "my key"⟩).EscapedPath
        = "/" ++ esc "mybucket" ++ "/" ++ esc "my key" ∧
      (createURL ⟨"mybucket", "my key"⟩).Path
        = (createURL ⟨"mybucket", "my key"⟩).EscapedPath :=
  C2_escape_amended "mybucket" "my key" (by decide) (by decide)

end goutil
